import Mathlib

/-!
Verification of the message intake and dispatch pipeline of the
tg-flowise-bot repository (a Telegram → Langflow relay bot).

The development shallowly embeds the JavaScript source:
* `src/index.js` — the full variant: "id" diagnostic command, "f" test
  intercept, Unicode trigger regex with lookahead, allow-list access
  control, per-chat busy map, payload/header construction, catch handler;
* `src/unnamed/part_000` — the variant with `extractAnswer(data, preferComponentName)`
  and `humanError`;
* `src/unnamed/part_001` / `src/unnamed/part_002` — the variants whose
  trigger regex uses a JavaScript `\b` word boundary.

Strings are modelled as Lean `String` (a structure over `List Char`);
JavaScript `Map` becomes an association list; the single external HTTP
call becomes an explicit `CallOutcome` argument, and the handler returns
the ordered list of effects (`Event`) it performs.
-/

namespace TgBot

/-! ### Character classes

`spaceCode n` holds exactly for the code points matched by JavaScript `\s`
(and stripped by `String.prototype.trim`). -/

def spaceCode (n : Nat) : Prop :=
  (9 ≤ n ∧ n ≤ 13) ∨ n = 32 ∨ n = 0xa0 ∨ n = 0x1680 ∨
    (0x2000 ≤ n ∧ n ≤ 0x200a) ∨ n = 0x2028 ∨ n = 0x2029 ∨
    n = 0x202f ∨ n = 0x205f ∨ n = 0x3000 ∨ n = 0xfeff

instance (n : Nat) : Decidable (spaceCode n) := by
  unfold spaceCode; infer_instance

def isSpace (c : Char) : Bool := decide (spaceCode c.toNat)

/-- The separator class `[\s,.:;!?-]` of the `src/index.js` trigger regex. -/
def isSep (c : Char) : Bool := isSpace c || [',', '.', ':', ';', '!', '?', '-'].contains c

/-- The separator class `[\s,:-]` of the `part_001`/`part_002` trigger regex. -/
def isSepB (c : Char) : Bool := isSpace c || [',', ':', '-'].contains c

/-- ASCII `\w` of JavaScript regexes: `[A-Za-z0-9_]`.  JavaScript keeps this
ASCII-only even under the `u` flag, which is what makes the `\b` in the
`part_001`/`part_002` trigger regex misbehave after Cyrillic letters. -/
def isWordChar (c : Char) : Bool :=
  decide ((0x41 ≤ c.toNat ∧ c.toNat ≤ 0x5a) ∨ (0x61 ≤ c.toNat ∧ c.toNat ≤ 0x7a) ∨
    (0x30 ≤ c.toNat ∧ c.toNat ≤ 0x39) ∨ c.toNat = 0x5f)

/-- Unicode simple case folding (= `toLowerCase`) restricted to the ranges the
program can distinguish: ASCII `A–Z` and Cyrillic `Ѐ–Џ` (U+0400–U+040F,
which contains `І`, `Ї`, `Є`) and `А–Я` (U+0410–U+042F).  Every other
character is left fixed; this agrees with JavaScript's case-insensitive
matching and `toLowerCase` on all characters relevant to the trigger words
`чат`/`кріш` and to the literal commands `id`/`f`. -/
def foldChar (c : Char) : Char :=
  if 0x41 ≤ c.toNat ∧ c.toNat ≤ 0x5a then Char.ofNat (c.toNat + 0x20)
  else if 0x410 ≤ c.toNat ∧ c.toNat ≤ 0x42f then Char.ofNat (c.toNat + 0x20)
  else if 0x400 ≤ c.toNat ∧ c.toNat ≤ 0x40f then Char.ofNat (c.toNat + 0x50)
  else c

/-! ### Trimming and lowercasing -/

def trimLeft (l : List Char) : List Char := l.dropWhile isSpace

def trimRight (l : List Char) : List Char := (l.reverse.dropWhile isSpace).reverse

/-- JavaScript `String.prototype.trim`. -/
def jsTrim (l : List Char) : List Char := trimRight (trimLeft l)

def jsTrimS (s : String) : String := ⟨jsTrim s.data⟩

/-- JavaScript `toLowerCase`, restricted as documented at `foldChar`. -/
def lowerS (s : String) : String := ⟨s.data.map foldChar⟩

/-! ### The trigger regexes

`src/index.js` line 88:
`const TRIGGER_RE = /^\s*(?:чат|кріш)(?=[\s,.:;!?-]|$)/iu;`

`part_001` line 66 / `part_002` line 73:
`const TRIGGER_RE = /^\s*(чат|кріш)\b[\s,:-]*/iu;`
-/

/-- Case-insensitive match of the literal (already lower-case) word `p`
against a prefix of `t`; returns the rest of `t` on success. -/
def matchWord : List Char → List Char → Option (List Char)
  | [], t => some t
  | _ :: _, [] => none
  | p :: ps, c :: cs => if foldChar c = p then matchWord ps cs else none

/-- The lookahead `(?=[\s,.:;!?-]|$)` of the `index.js` regex. -/
def sepOrEnd : List Char → Bool
  | [] => true
  | c :: _ => isSep c

/-- One alternative of the `index.js` regex: the trigger word followed by the
lookahead.  Consumes the word, not the lookahead. -/
def tryWord (p : List Char) (t : List Char) : Option (List Char) :=
  match matchWord p t with
  | some rest => if sepOrEnd rest then some rest else none
  | none => none

/-- Embeds `TRIGGER_RE` of `src/index.js`: on a match, returns the input minus the
consumed part (leading whitespace plus the trigger word) — i.e. exactly what
`raw.replace` with `TRIGGER_RE` leaves.  `none` means no match.
The regex alternation backtracks from `чат` to `кріш` when the lookahead
fails, but the two words start with distinct (fold-distinct) letters, so
trying them in sequence is the exact semantics. -/
def matchTrigger (l : List Char) : Option (List Char) :=
  let t := l.dropWhile isSpace
  (tryWord "чат".data t).orElse (fun _ => tryWord "кріш".data t)

/-- One alternative of the `part_001`/`part_002` regex: trigger word, then
JavaScript `\b`, then `[\s,:-]*`.  The character before the `\b` position is
the last letter of the matched word, which folds to Cyrillic `т`/`ш` and is
therefore never in ASCII `\w`; hence `\b` holds iff the next character exists
and is an ASCII word character. -/
def tryWordB (p : List Char) (t : List Char) : Option (List Char) :=
  match matchWord p t with
  | some rest =>
    match rest with
    | [] => none
    | c :: _ => if isWordChar c then some (rest.dropWhile isSepB) else none
  | none => none

/-- Embeds `TRIGGER_RE` of `part_001`/`part_002`: on a match, returns the input minus
the consumed part (whitespace, trigger word and the trailing `[\s,:-]*` run). -/
def matchTriggerB (l : List Char) : Option (List Char) :=
  let t := l.dropWhile isSpace
  (tryWordB "чат".data t).orElse (fun _ => tryWordB "кріш".data t)

/-- Embeds `TRIGGER_RE.test(raw)` of `src/index.js`. -/
def triggerTest (s : String) : Bool := (matchTrigger s.data).isSome

/-- Embeds the residual computation of `src/index.js`, which removes the
matched trigger, strips a leading separator run and trims —
the residual-query computation of `src/index.js` lines 136–139. -/
def cleanedOf (s : String) : String :=
  match matchTrigger s.data with
  | some rest => ⟨jsTrim (rest.dropWhile isSep)⟩
  | none => ⟨jsTrim (s.data.dropWhile isSep)⟩

/-! ### classify -/

inductive ClassifyResult where
  | Ignore : ClassifyResult
  | Forward (query : String) : ClassifyResult
deriving DecidableEq

/-- The intake decision of the `src/index.js` main handler (lines 120–142):
no trigger → ignore; trigger but empty residual → ignore; otherwise forward
the residual. -/
def classify (s : String) : ClassifyResult :=
  match matchTrigger s.data with
  | none => .Ignore
  | some rest =>
    let cleaned : String := ⟨jsTrim (rest.dropWhile isSep)⟩
    if cleaned = "" then .Ignore else .Forward cleaned

/-! ### JSON values and answer extraction

The Langflow response is untyped JSON.  JavaScript `undefined` (a missing
field, optional chaining on a non-object) and `null` are collapsed into
`Json.null`: every lookup the source performs treats the two identically
(nullish coalescing, the typeof-string test, `Array.isArray`). -/

inductive Json where
  | null : Json
  | bool (b : Bool) : Json
  | num (n : Int) : Json
  | str (s : String) : Json
  | arr (l : List Json) : Json
  | obj (fields : List (String × Json)) : Json

/-- Field access `x?.f` — `Json.null` when absent or when `x` is not an object. -/
def jget : Json → String → Json
  | .obj fields, k =>
    match fields.find? (fun p => p.1 == k) with
    | some p => p.2
    | none => .null
  | _, _ => .null

/-- JavaScript `Array.isArray(x) ? x : []`. -/
def asArr : Json → List Json
  | .arr l => l
  | _ => []

/-- Index `x?.[0]` on arrays — `Json.null` when empty or not an array. -/
def jidx0 : Json → Json
  | .arr (x :: _) => x
  | _ => .null

/-- Nullish coalescing `a ?? b`. -/
def jnn (a b : Json) : Json :=
  match a with
  | .null => b
  | _ => a

/-- Checks that `j` is a string whose trim is truthy (the recurring
`typeof x` test of all variants), returning it if so. -/
def strIfTrim (j : Json) : Option String :=
  match j with
  | .str s => if jsTrimS s = "" then none else some s
  | _ => none

/-- The candidate chain of `part_000` `extractAnswer` (lines 68–74):
`o?.results?.message?.text ?? o?.results?.text ?? o?.results?.output_text ??
 o?.data?.text ?? o?.data?.output_text ??
 (typeof o?.content is a string ? o.content : null)`. -/
def candidate (o : Json) : Json :=
  jnn (jget (jget (jget o "results") "message") "text")
    (jnn (jget (jget o "results") "text")
      (jnn (jget (jget o "results") "output_text")
        (jnn (jget (jget o "data") "text")
          (jnn (jget (jget o "data") "output_text")
            (match jget o "content" with
             | .str s => .str s
             | _ => .null)))))

/-- The `for (const o of outs)` loop of `part_000` `extractAnswer`:
return the first candidate that is a non-blank string. -/
def scanOuts : List Json → Option String
  | [] => none
  | o :: rest =>
    match strIfTrim (candidate o) with
    | some s => some s
    | none => scanOuts rest

/-- Section choice of `part_000` `extractAnswer` (lines 62–64):
`outputsArr.find((x) => x?.component_name === preferComponentName) ?? outputsArr[0]`. -/
def sectionOf (l : List Json) (pref : String) : Json :=
  match l.find? (fun x =>
    match jget x "component_name" with
    | .str s => s == pref
    | _ => false) with
  | some s => s
  | none => jidx0 (.arr l)

/-- The `outputs`-path of `part_000` `extractAnswer` (lines 59–78): when the
top-level `outputs` list is non-empty, scan the chosen section's nested
output list. -/
def fromOutputs (data : Json) (pref : String) : Option String :=
  let outputsArr := asArr (jget data "outputs")
  if outputsArr.isEmpty then none
  else scanOuts (asArr (jget (sectionOf outputsArr pref) "outputs"))

/-- Embeds `extractAnswer(data, preferComponentName)` of `src/unnamed/part_000`
(lines 54–87): the `outputs`-path, then the `data.text` and `data.message`
fallbacks.  `none` is the "no answer extracted" indicator (`null` in the
source); the caller then replies with the empty-answer placeholder. -/
def extractAnswer (data : Json) (pref : String) : Option String :=
  match fromOutputs data pref with
  | some s => some s
  | none =>
    match strIfTrim (jget data "text") with
    | some s => some s
    | none => strIfTrim (jget data "message")

/-- The fixed empty-answer sentinel string of `src/index.js`. -/
def emptyAnswer : String := "🤖 (порожня відповідь)"

/-- The candidate chain of `index.js` `extractAnswer` (line 78):
`o?.results?.message?.text ?? o?.results?.text`. -/
def candidateIdx (o : Json) : Json :=
  jnn (jget (jget (jget o "results") "message") "text") (jget (jget o "results") "text")

def scanOutsIdx : List Json → Option String
  | [] => none
  | o :: rest =>
    match strIfTrim (candidateIdx o) with
    | some s => some s
    | none => scanOutsIdx rest

/-- The loop of `index.js` `extractAnswer` over `data?.outputs?.[0]?.outputs`
(guarded by `Array.isArray`). -/
def scannedIdx (data : Json) : Option String :=
  match jget (jidx0 (jget data "outputs")) "outputs" with
  | .arr l => scanOutsIdx l
  | _ => none

/-- Embeds `extractAnswer(data)` of `src/index.js` (lines 73–85): scans
`data?.outputs?.[0]?.outputs`, falls back to `data?.message`, and otherwise
returns the fixed empty-answer sentinel. -/
def extractAnswerIdx (data : Json) : String :=
  match scannedIdx data with
  | some s => s
  | none =>
    match strIfTrim (jget data "message") with
    | some s => s
    | none => emptyAnswer

/-! ### Request construction -/

/-- Static configuration of `src/index.js`: the allow-lists imported from
`access.js` and the Langflow environment values.  `apiKey = ""` models an
unset or empty `LANGFLOW_API_KEY` (both are falsy in the JavaScript
truthiness test guarding the `x-api-key` header). -/
structure Config where
  allowedChats : List String
  allowedUsers : List String
  apiKey : String
  baseUrl : String
  flowId : String
deriving DecidableEq

/-- The fields of an incoming Telegram text message consumed by the handler.
Empty string models an absent `username`/`first_name`/`last_name`
(`undefined` and the empty string are treated identically by
`filter(Boolean)` and the
`||`/`? :` chains of lines 165–168). -/
structure Msg where
  chatId : String
  fromId : String
  text : String
  username : String
  firstName : String
  lastName : String
deriving DecidableEq

/-- The outbound JSON body of `src/index.js` lines 172–189. -/
structure Payload where
  input_value : String
  session_id : String
  input_type : String
  output_type : String
  sender : String
  sender_name : String
  tweaks : List (String × List (String × String))
deriving DecidableEq

def hexChar (n : Nat) : Char :=
  if n < 10 then Char.ofNat (0x30 + n) else Char.ofNat (0x41 + (n - 10))

/-- Bytes `encodeURIComponent` leaves unescaped: ASCII alphanumerics and
the marks minus, underscore, dot, bang, tilde, star, apostrophe and
parentheses. -/
def uriUnreserved (n : Nat) : Bool :=
  decide ((0x41 ≤ n ∧ n ≤ 0x5a) ∨ (0x61 ≤ n ∧ n ≤ 0x7a) ∨ (0x30 ≤ n ∧ n ≤ 0x39) ∨
    n = 0x2d ∨ n = 0x5f ∨ n = 0x2e ∨ n = 0x21 ∨ n = 0x7e ∨ n = 0x2a ∨
    n = 0x27 ∨ n = 0x28 ∨ n = 0x29)

/-- JavaScript `encodeURIComponent`: percent-encode every UTF-8 byte outside
the unreserved set. -/
def encodeURIComponent (s : String) : String :=
  ⟨(s.toUTF8.toList.map fun b =>
      let n := b.toNat
      if uriUnreserved n then [Char.ofNat n]
      else ['%', hexChar (n / 16), hexChar (n % 16)]).flatten⟩

/-- Builds the run URL `` `${CLEAN_LANGFLOW_BASE_URL}/api/v1/run/${encodeURIComponent(LANGFLOW_FLOW_ID)}` ``. -/
def urlOf (cfg : Config) : String :=
  cfg.baseUrl ++ "/api/v1/run/" ++ encodeURIComponent cfg.flowId

/-- Request headers of `src/index.js` lines 158–162: JSON content type and
accept, plus `x-api-key` exactly when the configured key is truthy. -/
def headersOf (cfg : Config) : List (String × String) :=
  [("Content-Type", "application/json"), ("accept", "application/json")] ++
    (if cfg.apiKey ≠ "" then [("x-api-key", cfg.apiKey)] else [])

/-- Embeds the human-name computation: first and last name filtered by
truthiness, joined with a space, trimmed. -/
def humanNameOf (m : Msg) : String :=
  jsTrimS (String.intercalate " " ([m.firstName, m.lastName].filter (fun x => x ≠ "")))

/-- Computes `humanName || tg.username || ` `` `user_${userId}` ``. -/
def senderNameOf (m : Msg) : String :=
  if humanNameOf m ≠ "" then humanNameOf m
  else if m.username ≠ "" then m.username
  else "user_" ++ m.fromId

/-- Computes the sender handle: `@username` when the username is truthy,
else the human name, else the fixed fallback "User". -/
def senderOf (m : Msg) : String :=
  if m.username ≠ "" then "@" ++ m.username
  else if humanNameOf m ≠ "" then humanNameOf m else "User"

/-- The payload of `src/index.js` lines 172–189 for the residual query
`cleaned`. -/
def payloadOf (m : Msg) (cleaned : String) : Payload :=
  { input_value := cleaned
    session_id := m.chatId
    input_type := "chat"
    output_type := "chat"
    sender := senderOf m
    sender_name := senderNameOf m
    tweaks := [("Chat Input", [("sender", senderOf m), ("sender_name", senderNameOf m)]),
               ("Name", [("text", senderNameOf m)])] }

/-! ### The handler pipeline -/

/-- Result of the single outbound `axios.post`: a parsed JSON body, or a
rejection carrying the HTTP status when the server responded
(`err.response.status`) and `none` for network/timeout errors. -/
inductive CallOutcome where
  | success (data : Json) : CallOutcome
  | failure (status : Option Nat) : CallOutcome

/-- Observable effects of one handled update, in execution order. -/
inductive Event where
  | sentReply (text : String) : Event
  | setBusy (chatId : String) (b : Bool) : Event
  | httpPost (url : String) (headers : List (String × String)) (payload : Payload) : Event
deriving DecidableEq

/-- Models `busyByChat`, a JavaScript `Map` from chat id to boolean.  Association
list, most recent entry first. -/
abbrev BusyMap := List (String × Bool)

/-- Embeds `busyByChat.get(chatId)` — `undefined` (falsy) when absent. -/
def busyGet (m : BusyMap) (k : String) : Bool :=
  match m.find? (fun p => p.1 == k) with
  | some p => p.2
  | none => false

/-- Embeds `busyByChat.set(chatId, b)`. -/
def busySet (m : BusyMap) (k : String) (b : Bool) : BusyMap := (k, b) :: m

def busyNotice : String := "⚠️ Я зайнятий, вже відповідаю іншому. Спробуй трохи пізніше 🙏"

def deniedNotice : String := "Бот поки працює виключно у шаразі."

def apologyText : String := "Ой, сталася помилка під час звернення до Langflow 🙈"

/-- The catch handler of `src/index.js` lines 196–200: the user-facing reply
for a failed call.  The status (and body) are only logged; the reply text
does not depend on them. -/
def errorReplyIdx (_status : Option Nat) : String := apologyText

/-- Embeds `humanError(err)` of `src/unnamed/part_000` lines 90–98, for an error
with HTTP status `status`, message `msg` (`""` = absent, defaulted to
the fixed unknown-error text) and response-body `detail` field
(`""` = absent/falsy;
non-string detail values are out of scope of the claims). -/
def humanError (status : Option Nat) (msg : String) (detail : String) : String :=
  let m := if msg = "" then "Unknown error" else msg
  let brief := "Статус: " ++ (match status with | some n => toString n | none => "—") ++ ". " ++ m
  if detail ≠ "" then brief ++ " | Деталі: " ++ detail else brief

/-- Embeds `ALLOWED_CHATS.has(chatId) || ALLOWED_USERS.has(userId)` (line 129). -/
def isAllowed (cfg : Config) (m : Msg) : Bool :=
  cfg.allowedChats.contains m.chatId || cfg.allowedUsers.contains m.fromId

/-- Reply text of the dispatch branch: on success
`extractAnswer(data)` with the empty-answer sentinel as truthiness fallback
(line 192), on failure the
catch handler's apology. -/
def answerOf (call : CallOutcome) : String :=
  match call with
  | .success d => if extractAnswerIdx d = "" then emptyAnswer else extractAnswerIdx d
  | .failure st => errorReplyIdx st

/-- The complete text-message middleware chain of `src/index.js`
(lines 95–205) on one text message: the "id" diagnostic (95–107), the "f"
test intercept (110–117), then the main handler — trigger test, allow-list
check, residual extraction, busy gate, dispatch with scoped busy
acquisition/release.  Returns the ordered effect list and the busy map
after completion.  The `BUSY_RESET_MS` safety timer (armed at line 155 and
cleared in the same `finally` that resets the flag) only fires if the call
outlasts two minutes of real time; real time is outside this model. -/
def runHandler (cfg : Config) (busy : BusyMap) (m : Msg) (call : CallOutcome) :
    List Event × BusyMap :=
  if lowerS (jsTrimS m.text) = "id" then
    ([.sentReply ("chatId: " ++ m.chatId ++ "\nfromId: " ++ m.fromId)], busy)
  else if m.text = "f" then
    ([.sentReply "OK (f)"], busy)
  else if triggerTest m.text then
    if isAllowed cfg m then
      let cleaned := cleanedOf m.text
      if cleaned = "" then ([], busy)
      else if busyGet busy m.chatId then
        ([.sentReply busyNotice], busy)
      else
        ([.setBusy m.chatId true,
          .httpPost (urlOf cfg) (headersOf cfg) (payloadOf m cleaned),
          .sentReply (answerOf call),
          .setBusy m.chatId false],
         busySet (busySet busy m.chatId true) m.chatId false)
    else ([.sentReply deniedNotice], busy)
  else ([], busy)

/-- The spec's description of a forwardable message, for comparison with the
code-derived `classify`: `T` has the form `<space>* <trigger> <sep>* <rest>`
— optional leading whitespace, then a word case-folding to `чат` or `кріш`,
followed by a separator or end-of-string — and `r` is `rest.trim()` (with
`<sep>*` read as the maximal separator run after the trigger word). -/
def SpecForm (s : String) (r : String) : Prop :=
  ∃ sp w rest, s.data = sp ++ w ++ rest ∧
    (∀ c ∈ sp, isSpace c = true) ∧
    (w.map foldChar = "чат".data ∨ w.map foldChar = "кріш".data) ∧
    sepOrEnd rest = true ∧
    r = ⟨jsTrim (rest.dropWhile isSep)⟩

/-! ### Concrete fixtures used by witness theorems -/

def cfgDemo : Config :=
  { allowedChats := ["-100123"], allowedUsers := ["42"],
    apiKey := "k-123", baseUrl := "https://lf.example", flowId := "flow-1" }

/-- A config with empty allow-lists and no API key. -/
def cfgEmpty : Config :=
  { allowedChats := [], allowedUsers := [], apiKey := "", baseUrl := "", flowId := "" }

/-- An allowed chat member sending a trigger message. -/
def msgDemo : Msg :=
  { chatId := "-100123", fromId := "7", text := "Кріш як твій настрій",
    username := "ronaldo", firstName := "Кріштіану", lastName := "" }

/-- A message whose trimmed lower-cased text is the diagnostic command. -/
def msgIdDemo : Msg :=
  { chatId := "c1", fromId := "u1", text := "  ID ",
    username := "", firstName := "", lastName := "" }

/-- The literal test message. -/
def msgF : Msg :=
  { chatId := "c2", fromId := "u2", text := "f",
    username := "", firstName := "", lastName := "" }

/-- A trigger message from a chat and sender outside every allow-list. -/
def msgDeny : Msg :=
  { chatId := "x", fromId := "y", text := "чат привіт",
    username := "", firstName := "", lastName := "" }

/-- The single outputs section `{component_name:"X",
outputs:[{results:{message:{text:"hello"}}}]}`. -/
def exSection : Json :=
  .obj [("component_name", .str "X"),
        ("outputs", .arr [.obj [("results", .obj
          [("message", .obj [("text", .str "hello")])])]])]

/-- JSON value `{outputs:[{component_name:"X", outputs:[{results:{message:{text:"hello"}}}]}]}`. -/
def exResp : Json := .obj [("outputs", .arr [exSection])]

/-- JSON value `{message:"fallback"}`. -/
def exFallback : Json := .obj [("message", .str "fallback")]

/-- JSON value `{}`. -/
def exEmpty : Json := .obj []

section Helpers

variable {α : Type} {p : α → Bool}

theorem dropWhile_head_not {l : List α} {c : α} {t : List α}
    (h : l.dropWhile p = c :: t) : p c = false := by
  induction l with
  | nil => simp [List.dropWhile] at h
  | cons a l ih =>
    rw [List.dropWhile_cons] at h
    by_cases ha : p a
    · exact ih (by simpa [ha] using h)
    · obtain ⟨rfl, -⟩ : a = c ∧ l = t := by simpa [ha] using h
      simpa using ha

theorem dropWhile_append_all {sp l : List α} (h : ∀ x ∈ sp, p x = true) :
    (sp ++ l).dropWhile p = l.dropWhile p := by
  induction sp with
  | nil => rfl
  | cons a sp ih =>
    have ha : p a = true := h a (by simp)
    simp only [List.cons_append, List.dropWhile_cons, ha, if_true]
    exact ih (fun x hx => h x (by simp [hx]))

theorem dropWhile_append_last {xs : List α} {c : α} (h : p c = false) :
    (xs ++ [c]).dropWhile p = xs.dropWhile p ++ [c] := by
  induction xs with
  | nil => simp [List.dropWhile_cons, h]
  | cons a xs ih =>
    by_cases ha : p a
    · simp only [List.cons_append, List.dropWhile_cons, ha, if_true]
      exact ih
    · simp [List.dropWhile_cons, ha]

theorem mem_takeWhile_sat {l : List α} {x : α} (h : x ∈ l.takeWhile p) :
    p x = true := by
  induction l with
  | nil => simp [List.takeWhile] at h
  | cons a l ih =>
    rw [List.takeWhile_cons] at h
    by_cases ha : p a
    · rcases (by simpa [ha] using h : x = a ∨ x ∈ l.takeWhile p) with rfl | hx
      · exact ha
      · exact ih hx
    · simp [ha] at h

theorem trimRight_cons_not_space {c : Char} {rest : List Char}
    (h : isSpace c = false) : trimRight (c :: rest) = c :: trimRight rest := by
  show ((c :: rest).reverse.dropWhile isSpace).reverse = _
  rw [List.reverse_cons, dropWhile_append_last h, List.reverse_append]
  rfl

theorem isSpace_foldChar_fix {c : Char} (h : isSpace c = true) :
    foldChar c = c := by
  have h' : spaceCode c.toNat := of_decide_eq_true h
  unfold spaceCode at h'
  unfold foldChar
  rw [if_neg (by omega), if_neg (by omega), if_neg (by omega)]

theorem not_space_of_foldChar {c ch : Char} (hch : isSpace ch = false)
    (h : foldChar c = ch) : isSpace c = false := by
  by_cases hs : isSpace c = true
  · rw [isSpace_foldChar_fix hs] at h
    rw [h] at hs
    rw [hs] at hch
    exact absurd hch (by simp)
  · simpa using hs

theorem matchWord_append {w r : List Char} {pat : List Char}
    (h : w.map foldChar = pat) : matchWord pat (w ++ r) = some r := by
  induction w generalizing pat with
  | nil => subst h; rfl
  | cons c w ih =>
    subst h
    simp only [List.map_cons, List.cons_append, matchWord, if_pos rfl]
    exact ih rfl

theorem matchWord_decomp {pat t r : List Char} (h : matchWord pat t = some r) :
    ∃ w, t = w ++ r ∧ w.map foldChar = pat := by
  induction pat generalizing t with
  | nil =>
    refine ⟨[], ?_, rfl⟩
    simpa [matchWord] using h
  | cons q ps ih =>
    match t with
    | [] => simp [matchWord] at h
    | c :: cs =>
      rw [matchWord] at h
      by_cases hc : foldChar c = q
      · obtain ⟨w, rfl, hw⟩ := ih (by simpa [hc] using h)
        exact ⟨c :: w, rfl, by simp [hw, hc]⟩
      · simp [hc] at h

end Helpers

section TriggerLemmas

theorem tryWord_decomp {pat t rest : List Char} (h : tryWord pat t = some rest) :
    ∃ w, t = w ++ rest ∧ w.map foldChar = pat ∧ sepOrEnd rest = true := by
  unfold tryWord at h
  cases hm : matchWord pat t with
  | none => rw [hm] at h; exact absurd h (by simp)
  | some r =>
    rw [hm] at h
    by_cases hs : sepOrEnd r = true
    · obtain ⟨rfl⟩ : r = rest := by simpa [hs] using h
      obtain ⟨w, rfl, hw⟩ := matchWord_decomp hm
      exact ⟨w, rfl, hw, hs⟩
    · simp [hs] at h

theorem trigger_decomp {l rest : List Char} (h : matchTrigger l = some rest) :
    ∃ w, l.dropWhile isSpace = w ++ rest ∧
      (w.map foldChar = "чат".data ∨ w.map foldChar = "кріш".data) ∧
      sepOrEnd rest = true := by
  simp only [matchTrigger] at h
  cases h1 : tryWord "чат".data (l.dropWhile isSpace) with
  | some r =>
    rw [h1] at h
    obtain ⟨rfl⟩ : r = rest := by simpa [Option.orElse] using h
    obtain ⟨w, hw1, hw2, hw3⟩ := tryWord_decomp h1
    exact ⟨w, hw1, Or.inl hw2, hw3⟩
  | none =>
    rw [h1] at h
    have h2 : tryWord "кріш".data (l.dropWhile isSpace) = some rest := by
      simpa [Option.orElse] using h
    obtain ⟨w, hw1, hw2, hw3⟩ := tryWord_decomp h2
    exact ⟨w, hw1, Or.inr hw2, hw3⟩

theorem trigger_build {l rest : List Char} {w : List Char}
    (hdw : l.dropWhile isSpace = w ++ rest)
    (hw : w.map foldChar = "чат".data ∨ w.map foldChar = "кріш".data)
    (hsep : sepOrEnd rest = true) : matchTrigger l = some rest := by
  simp only [matchTrigger, hdw]
  rcases hw with hw | hw
  · have h1 : tryWord "чат".data (w ++ rest) = some rest := by
      unfold tryWord
      rw [matchWord_append hw]
      simp [hsep]
    rw [h1]
    rfl
  · have hne : tryWord "чат".data (w ++ rest) = none := by
      match w, hw with
      | [], hw => exact absurd hw (by decide)
      | c :: w', hw =>
        have hc : foldChar c = 'к' := by
          have := congrArg (fun x => x.headD ' ') hw
          simpa using this
        have hm : matchWord "чат".data (c :: (w' ++ rest)) = none := by
          show matchWord ('ч' :: "ат".data) (c :: (w' ++ rest)) = none
          simp only [matchWord]
          rw [if_neg (by rw [hc]; decide)]
        unfold tryWord
        rw [List.cons_append, hm]
    have h2 : tryWord "кріш".data (w ++ rest) = some rest := by
      unfold tryWord
      rw [matchWord_append hw]
      simp [hsep]
    rw [hne]
    simpa [Option.orElse] using h2

theorem trigger_head_fold {l rest : List Char} (h : matchTrigger l = some rest) :
    ∃ c t, l.dropWhile isSpace = c :: t ∧ (foldChar c = 'ч' ∨ foldChar c = 'к') := by
  obtain ⟨w, hw1, hw2, -⟩ := trigger_decomp h
  match w, hw2 with
  | c :: w', hw2 =>
    refine ⟨c, w' ++ rest, by simpa using hw1, ?_⟩
    rcases hw2 with hw2 | hw2
    · exact Or.inl (by have := congrArg (fun x => x.headD ' ') hw2; simpa using this)
    · exact Or.inr (by have := congrArg (fun x => x.headD ' ') hw2; simpa using this)
  | [], hw2 => rcases hw2 with hw2 | hw2 <;> simp at hw2

/-- A trigger-matching text can never pass the `"id"` diagnostic test:
its trimmed, lower-cased form starts with `ч` or `к`. -/
theorem trigger_not_id {s : String} {rest : List Char}
    (h : matchTrigger s.data = some rest) : lowerS (jsTrimS s) ≠ "id" := by
  obtain ⟨c, t, hdw, hc⟩ := trigger_head_fold h
  have hcs : isSpace c = false := dropWhile_head_not hdw
  intro hid
  have : (jsTrim s.data).map foldChar = "id".data := congrArg String.data hid
  rw [jsTrim, trimLeft, hdw, trimRight_cons_not_space hcs] at this
  have hhead : foldChar c = 'i' := by
    have := congrArg (fun x => x.headD ' ') this
    simpa using this
  rcases hc with hc | hc <;> rw [hc] at hhead <;> exact absurd hhead (by decide)

/-- A trigger-matching text is never the literal `"f"`. -/
theorem trigger_not_f {s : String} {rest : List Char}
    (h : matchTrigger s.data = some rest) : s ≠ "f" := by
  rintro rfl
  have hf : matchTrigger "f".data = none := by decide
  rw [hf] at h
  exact absurd h (by simp)

end TriggerLemmas

theorem busyGet_busySet_self (m : BusyMap) (k : String) (b : Bool) :
    busyGet (busySet m k b) k = b := by
  simp [busyGet, busySet, List.find?]

section HandlerLemmas

theorem runHandler_denied (cfg : Config) (busy : BusyMap) (m : Msg) (call : CallOutcome)
    (htr : triggerTest m.text = true) (hal : isAllowed cfg m = false) :
    runHandler cfg busy m call = ([.sentReply deniedNotice], busy) := by
  obtain ⟨rest, hrest⟩ := Option.isSome_iff_exists.mp htr
  have hid : lowerS (jsTrimS m.text) ≠ "id" := trigger_not_id hrest
  have hf : m.text ≠ "f" := trigger_not_f hrest
  simp only [runHandler]
  rw [if_neg hid, if_neg hf, if_pos htr, if_neg (by simp [hal])]

theorem runHandler_busy (cfg : Config) (busy : BusyMap) (m : Msg) (call : CallOutcome)
    (htr : triggerTest m.text = true) (hal : isAllowed cfg m = true)
    (hcl : cleanedOf m.text ≠ "") (hb : busyGet busy m.chatId = true) :
    runHandler cfg busy m call = ([.sentReply busyNotice], busy) := by
  obtain ⟨rest, hrest⟩ := Option.isSome_iff_exists.mp htr
  have hid : lowerS (jsTrimS m.text) ≠ "id" := trigger_not_id hrest
  have hf : m.text ≠ "f" := trigger_not_f hrest
  simp only [runHandler]
  rw [if_neg hid, if_neg hf, if_pos htr, if_pos hal, if_neg hcl, if_pos hb]

theorem runHandler_dispatch (cfg : Config) (busy : BusyMap) (m : Msg) (call : CallOutcome)
    (htr : triggerTest m.text = true) (hal : isAllowed cfg m = true)
    (hcl : cleanedOf m.text ≠ "") (hb : busyGet busy m.chatId = false) :
    runHandler cfg busy m call =
      ([.setBusy m.chatId true,
        .httpPost (urlOf cfg) (headersOf cfg) (payloadOf m (cleanedOf m.text)),
        .sentReply (answerOf call), .setBusy m.chatId false],
       busySet (busySet busy m.chatId true) m.chatId false) := by
  obtain ⟨rest, hrest⟩ := Option.isSome_iff_exists.mp htr
  have hid : lowerS (jsTrimS m.text) ≠ "id" := trigger_not_id hrest
  have hf : m.text ≠ "f" := trigger_not_f hrest
  simp only [runHandler]
  rw [if_neg hid, if_neg hf, if_pos htr, if_pos hal, if_neg hcl, if_neg (by simp [hb])]

theorem mem_headersOf_key (cfg : Config) (k : String) :
    ("x-api-key", k) ∈ headersOf cfg ↔ (cfg.apiKey ≠ "" ∧ k = cfg.apiKey) := by
  unfold headersOf
  by_cases h : cfg.apiKey = "" <;> simp [h, Prod.ext_iff]

end HandlerLemmas

section ClassifyLemmas

theorem classify_eq_none {s : String} (hm : matchTrigger s.data = none) :
    classify s = .Ignore := by
  unfold classify
  rw [hm]

theorem classify_eq_some {s : String} {rest : List Char}
    (hm : matchTrigger s.data = some rest) :
    classify s =
      if (⟨jsTrim (rest.dropWhile isSep)⟩ : String) = "" then .Ignore
      else .Forward ⟨jsTrim (rest.dropWhile isSep)⟩ := by
  unfold classify
  rw [hm]

/-- A successful trigger match yields a spec-shaped decomposition of the
input with the code's residual. -/
theorem match_to_specForm {s : String} {rest : List Char}
    (h : matchTrigger s.data = some rest) :
    SpecForm s ⟨jsTrim (rest.dropWhile isSep)⟩ := by
  obtain ⟨w, hw1, hw2, hw3⟩ := trigger_decomp h
  refine ⟨s.data.takeWhile isSpace, w, rest, ?_, ?_, hw2, hw3, rfl⟩
  · calc s.data = s.data.takeWhile isSpace ++ s.data.dropWhile isSpace := by
          rw [List.takeWhile_append_dropWhile]
      _ = s.data.takeWhile isSpace ++ (w ++ rest) := by rw [hw1]
      _ = s.data.takeWhile isSpace ++ w ++ rest := by rw [List.append_assoc]
  · intro c hc
    exact mem_takeWhile_sat hc

/-- A spec-shaped decomposition forces the trigger regex to match, with the
decomposition's remainder. -/
theorem specForm_to_match {s r : String} (h : SpecForm s r) :
    ∃ rest, matchTrigger s.data = some rest ∧ r = ⟨jsTrim (rest.dropWhile isSep)⟩ := by
  obtain ⟨sp, w, rest, hdecomp, hsp, hw, hsep, hr⟩ := h
  refine ⟨rest, ?_, hr⟩
  have hwne : ∃ c w', w = c :: w' ∧ (foldChar c = 'ч' ∨ foldChar c = 'к') := by
    match w, hw with
    | [], hw => rcases hw with hw | hw <;> exact absurd hw (by decide)
    | c :: w', hw =>
      refine ⟨c, w', rfl, ?_⟩
      rcases hw with hw | hw
      · exact Or.inl (by have := congrArg (fun x => x.headD ' ') hw; simpa using this)
      · exact Or.inr (by have := congrArg (fun x => x.headD ' ') hw; simpa using this)
  obtain ⟨c, w', rfl, hc⟩ := hwne
  have hcs : isSpace c = false := by
    rcases hc with hc | hc
    · exact not_space_of_foldChar (by decide) hc
    · exact not_space_of_foldChar (by decide) hc
  have hdw : s.data.dropWhile isSpace = (c :: w') ++ rest := by
    rw [hdecomp, List.append_assoc, dropWhile_append_all hsp, List.cons_append]
    exact List.dropWhile_cons_of_neg (by simp [hcs])
  exact trigger_build hdw hw hsep

end ClassifyLemmas

section ExtractLemmas

theorem strIfTrim_nonblank {j : Json} {s : String} (h : strIfTrim j = some s) :
    jsTrimS s ≠ "" := by
  cases j with
  | str t =>
    simp only [strIfTrim] at h
    by_cases ht : jsTrimS t = ""
    · rw [if_pos ht] at h
      exact absurd h (by simp)
    · rw [if_neg ht] at h
      injection h with h'
      rw [← h']
      exact ht
  | null => simp [strIfTrim] at h
  | bool b => simp [strIfTrim] at h
  | num n => simp [strIfTrim] at h
  | arr l => simp [strIfTrim] at h
  | obj f => simp [strIfTrim] at h

theorem scanOuts_nonblank {l : List Json} {s : String} (h : scanOuts l = some s) :
    jsTrimS s ≠ "" := by
  induction l with
  | nil => simp [scanOuts] at h
  | cons o rest ih =>
    cases hc : strIfTrim (candidate o) with
    | some t =>
      simp only [scanOuts, hc] at h
      injection h with h'
      rw [← h']
      exact strIfTrim_nonblank hc
    | none =>
      simp only [scanOuts, hc] at h
      exact ih h

theorem scanOutsIdx_nonblank {l : List Json} {s : String}
    (h : scanOutsIdx l = some s) : jsTrimS s ≠ "" := by
  induction l with
  | nil => simp [scanOutsIdx] at h
  | cons o rest ih =>
    cases hc : strIfTrim (candidateIdx o) with
    | some t =>
      simp only [scanOutsIdx, hc] at h
      injection h with h'
      rw [← h']
      exact strIfTrim_nonblank hc
    | none =>
      simp only [scanOutsIdx, hc] at h
      exact ih h

theorem fromOutputs_nonblank {d : Json} {pref s : String}
    (h : fromOutputs d pref = some s) : jsTrimS s ≠ "" := by
  unfold fromOutputs at h
  by_cases hemp : (asArr (jget d "outputs")).isEmpty
  · rw [if_pos hemp] at h
    exact absurd h (by simp)
  · rw [if_neg hemp] at h
    exact scanOuts_nonblank h

theorem extractAnswer_some_nonblank {d : Json} {pref s : String}
    (h : extractAnswer d pref = some s) : jsTrimS s ≠ "" := by
  cases hf : fromOutputs d pref with
  | some t =>
    simp only [extractAnswer, hf] at h
    injection h with h'
    rw [← h']
    exact fromOutputs_nonblank hf
  | none =>
    simp only [extractAnswer, hf] at h
    cases h1 : strIfTrim (jget d "text") with
    | some t =>
      simp only [h1] at h
      injection h with h'
      rw [← h']
      exact strIfTrim_nonblank h1
    | none =>
      simp only [h1] at h
      exact strIfTrim_nonblank h

theorem scannedIdx_nonblank {d : Json} {s : String}
    (h : scannedIdx d = some s) : jsTrimS s ≠ "" := by
  unfold scannedIdx at h
  cases houts : jget (jidx0 (jget d "outputs")) "outputs" with
  | arr l =>
    rw [houts] at h
    exact scanOutsIdx_nonblank h
  | null => rw [houts] at h; exact absurd h (by simp)
  | bool b => rw [houts] at h; exact absurd h (by simp)
  | num n => rw [houts] at h; exact absurd h (by simp)
  | str t => rw [houts] at h; exact absurd h (by simp)
  | obj f => rw [houts] at h; exact absurd h (by simp)

end ExtractLemmas

/-! ## Claim theorems -/

/-- C3: characterization of `classify`.  For every text `s` and residual
`r`, `classify s` forwards `r` exactly when `s` decomposes as
`<space>* <trigger> <sep>* <rest>` (trigger word after leading whitespace,
followed by a separator or end-of-string) with `r = rest.trim()` non-empty;
and `classify s` ignores the message exactly when no such non-empty
residual exists (no leading trigger, trigger mid-sentence, or blank
residual). -/
theorem classify_characterization (s : String) (r : String) :
    (classify s = .Forward r ↔ (SpecForm s r ∧ r ≠ "")) ∧
    (classify s = .Ignore ↔ ¬∃ q, SpecForm s q ∧ q ≠ "") := by
  have hfwd : ∀ q : String, classify s = .Forward q ↔ (SpecForm s q ∧ q ≠ "") := by
    intro q
    constructor
    · intro h
      cases hm : matchTrigger s.data with
      | none =>
        rw [classify_eq_none hm] at h
        exact absurd h (by simp)
      | some rest =>
        rw [classify_eq_some hm] at h
        by_cases he : (⟨jsTrim (rest.dropWhile isSep)⟩ : String) = ""
        · rw [if_pos he] at h
          exact absurd h (by simp)
        · rw [if_neg he] at h
          injection h with h'
          rw [← h']
          exact ⟨match_to_specForm hm, he⟩
    · rintro ⟨hsf, hne⟩
      obtain ⟨rest, hm, hreq⟩ := specForm_to_match hsf
      rw [classify_eq_some hm, ← hreq, if_neg hne]
  refine ⟨hfwd r, ?_, ?_⟩
  · rintro hig ⟨q, hq⟩
    have hq' := (hfwd q).mpr hq
    rw [hig] at hq'
    exact absurd hq' (by simp)
  · intro hno
    cases hc : classify s with
    | Ignore => rfl
    | Forward q => exact absurd ⟨q, (hfwd q).mp hc⟩ hno

/-- C1: per-conversation busy gate.  If the busy flag of the conversation is
set when an accepted query arrives, the handler replies with the fixed busy
notice, performs no external call and leaves the map unchanged; otherwise it
sets the flag before the single external call, resets it after the reply
(for an arbitrary call outcome, success and failure alike — `call` is
universally quantified), and the final map has the flag cleared, so a
subsequent submit for the same conversation passes the gate. -/
theorem busy_gate_per_conversation (cfg : Config) (busy : BusyMap) (m : Msg)
    (call : CallOutcome) (htr : triggerTest m.text = true)
    (hal : isAllowed cfg m = true) (hcl : cleanedOf m.text ≠ "") :
    (busyGet busy m.chatId = true →
       runHandler cfg busy m call = ([.sentReply busyNotice], busy) ∧
       ∀ u hs p, Event.httpPost u hs p ∉ (runHandler cfg busy m call).1) ∧
    (busyGet busy m.chatId = false →
       runHandler cfg busy m call =
         ([.setBusy m.chatId true,
           .httpPost (urlOf cfg) (headersOf cfg) (payloadOf m (cleanedOf m.text)),
           .sentReply (answerOf call), .setBusy m.chatId false],
          busySet (busySet busy m.chatId true) m.chatId false) ∧
       busyGet (runHandler cfg busy m call).2 m.chatId = false) := by
  constructor
  · intro hb
    have h1 := runHandler_busy cfg busy m call htr hal hcl hb
    refine ⟨h1, ?_⟩
    intro u hs p
    rw [h1]
    simp
  · intro hb
    have h1 := runHandler_dispatch cfg busy m call htr hal hcl hb
    refine ⟨h1, ?_⟩
    rw [h1]
    exact busyGet_busySet_self _ _ _

theorem busy_gate_per_conversation_witness :
    triggerTest msgDemo.text = true ∧ isAllowed cfgDemo msgDemo = true ∧
    cleanedOf msgDemo.text ≠ "" ∧
    ((busyGet [] msgDemo.chatId = true →
        runHandler cfgDemo [] msgDemo (.failure none) = ([.sentReply busyNotice], []) ∧
        ∀ u hs p, Event.httpPost u hs p ∉ (runHandler cfgDemo [] msgDemo (.failure none)).1) ∧
     (busyGet [] msgDemo.chatId = false →
        runHandler cfgDemo [] msgDemo (.failure none) =
          ([.setBusy msgDemo.chatId true,
            .httpPost (urlOf cfgDemo) (headersOf cfgDemo)
              (payloadOf msgDemo (cleanedOf msgDemo.text)),
            .sentReply (answerOf (.failure none)), .setBusy msgDemo.chatId false],
           busySet (busySet [] msgDemo.chatId true) msgDemo.chatId false) ∧
        busyGet (runHandler cfgDemo [] msgDemo (.failure none)).2 msgDemo.chatId = false)) :=
  ⟨by decide, by decide, by decide,
   busy_gate_per_conversation cfgDemo [] msgDemo (.failure none)
     (by decide) (by decide) (by decide)⟩

/-- C2 (counterexample): the claimed status→category mapping does not exist.
In `src/index.js` the replies for 401, 404, 413 and 500 are one and the same
fixed string, so 401 (claimed unauthorized category) and 404 (claimed
not-found category) do not produce distinct messages; and in
`src/unnamed/part_000` the replies for 401 and 403 differ (the raw status
number is interpolated), so they do not share one fixed unauthorized
message. -/
theorem error_reply_ignores_status_counterexample :
    errorReplyIdx (some 401) = errorReplyIdx (some 404) ∧
    errorReplyIdx (some 404) = errorReplyIdx (some 413) ∧
    errorReplyIdx (some 413) = errorReplyIdx (some 500) ∧
    humanError (some 401) "Request failed" "" ≠ humanError (some 403) "Request failed" "" :=
  ⟨rfl, rfl, rfl, by decide⟩

/-- C2 (amended): every failed external call yields the same user-facing
reply regardless of the HTTP status — the handler's behaviour is identical
for any two failure statuses, and the `index.js` catch handler's reply is
the single fixed generic apology. -/
theorem error_reply_uniform (cfg : Config) (busy : BusyMap) (m : Msg)
    (st1 st2 : Option Nat) :
    runHandler cfg busy m (.failure st1) = runHandler cfg busy m (.failure st2) ∧
    errorReplyIdx st1 = apologyText :=
  ⟨rfl, rfl⟩

/-- C5: a message whose text trims and lower-cases to `"id"` always gets the
identifier reply — before (and so regardless of) the trigger check and the
allow-list check, with no other effect, for every configuration, busy map
and call outcome. -/
theorem id_command_always_replies (cfg : Config) (busy : BusyMap) (m : Msg)
    (call : CallOutcome) (h : lowerS (jsTrimS m.text) = "id") :
    runHandler cfg busy m call =
      ([.sentReply ("chatId: " ++ m.chatId ++ "\nfromId: " ++ m.fromId)], busy) := by
  simp only [runHandler]
  rw [if_pos h]

theorem id_command_always_replies_witness :
    lowerS (jsTrimS msgIdDemo.text) = "id" ∧
    runHandler cfgEmpty [] msgIdDemo (.failure none) =
      ([.sentReply ("chatId: " ++ msgIdDemo.chatId ++ "\nfromId: " ++ msgIdDemo.fromId)], []) :=
  ⟨by decide, id_command_always_replies cfgEmpty [] msgIdDemo (.failure none) (by decide)⟩

/-- C6: a trigger-matching message from a chat outside the chat allow-list
whose sender is outside the user allow-list gets exactly the fixed denial
reply, and the effect list contains no outbound HTTP call. -/
theorem denied_blocks_dispatch (cfg : Config) (busy : BusyMap) (m : Msg)
    (call : CallOutcome) (htr : triggerTest m.text = true)
    (hchat : cfg.allowedChats.contains m.chatId = false)
    (huser : cfg.allowedUsers.contains m.fromId = false) :
    runHandler cfg busy m call = ([.sentReply deniedNotice], busy) ∧
    ∀ u hs p, Event.httpPost u hs p ∉ (runHandler cfg busy m call).1 := by
  have hal : isAllowed cfg m = false := by
    unfold isAllowed
    rw [hchat, huser]
    rfl
  have h1 := runHandler_denied cfg busy m call htr hal
  refine ⟨h1, ?_⟩
  intro u hs p
  rw [h1]
  simp

theorem denied_blocks_dispatch_witness :
    triggerTest msgDeny.text = true ∧
    cfgDemo.allowedChats.contains msgDeny.chatId = false ∧
    cfgDemo.allowedUsers.contains msgDeny.fromId = false ∧
    (runHandler cfgDemo [] msgDeny (.failure none) = ([.sentReply deniedNotice], []) ∧
     ∀ u hs p, Event.httpPost u hs p ∉ (runHandler cfgDemo [] msgDeny (.failure none)).1) :=
  ⟨by decide, by decide, by decide,
   denied_blocks_dispatch cfgDemo [] msgDeny (.failure none)
     (by decide) (by decide) (by decide)⟩

/-- C9: for an accepted query, the outbound request carries a payload with
`input_value` equal to the residual query text, `session_id` equal to the
conversation identifier and the fixed `chat`/`chat` mode markers; the
headers contain the JSON content-type and accept entries, and `x-api-key`
is present exactly when an API key is configured (non-empty). -/
theorem request_construction (cfg : Config) (busy : BusyMap) (m : Msg)
    (call : CallOutcome) (htr : triggerTest m.text = true)
    (hal : isAllowed cfg m = true) (hcl : cleanedOf m.text ≠ "")
    (hb : busyGet busy m.chatId = false) :
    (runHandler cfg busy m call).1 =
      [.setBusy m.chatId true,
       .httpPost (urlOf cfg) (headersOf cfg) (payloadOf m (cleanedOf m.text)),
       .sentReply (answerOf call), .setBusy m.chatId false] ∧
    (payloadOf m (cleanedOf m.text)).input_value = cleanedOf m.text ∧
    (payloadOf m (cleanedOf m.text)).session_id = m.chatId ∧
    (payloadOf m (cleanedOf m.text)).input_type = "chat" ∧
    (payloadOf m (cleanedOf m.text)).output_type = "chat" ∧
    ("Content-Type", "application/json") ∈ headersOf cfg ∧
    ("accept", "application/json") ∈ headersOf cfg ∧
    (∀ k, ("x-api-key", k) ∈ headersOf cfg ↔ (cfg.apiKey ≠ "" ∧ k = cfg.apiKey)) := by
  refine ⟨by rw [runHandler_dispatch cfg busy m call htr hal hcl hb],
    rfl, rfl, rfl, rfl, ?_, ?_, mem_headersOf_key cfg⟩
  · unfold headersOf
    simp
  · unfold headersOf
    simp

theorem request_construction_witness :
    triggerTest msgDemo.text = true ∧ isAllowed cfgDemo msgDemo = true ∧
    cleanedOf msgDemo.text ≠ "" ∧ busyGet [] msgDemo.chatId = false ∧
    ((runHandler cfgDemo [] msgDemo (.failure (some 500))).1 =
       [.setBusy msgDemo.chatId true,
        .httpPost (urlOf cfgDemo) (headersOf cfgDemo)
          (payloadOf msgDemo (cleanedOf msgDemo.text)),
        .sentReply (answerOf (.failure (some 500))), .setBusy msgDemo.chatId false] ∧
     (payloadOf msgDemo (cleanedOf msgDemo.text)).input_value = cleanedOf msgDemo.text ∧
     (payloadOf msgDemo (cleanedOf msgDemo.text)).session_id = msgDemo.chatId ∧
     (payloadOf msgDemo (cleanedOf msgDemo.text)).input_type = "chat" ∧
     (payloadOf msgDemo (cleanedOf msgDemo.text)).output_type = "chat" ∧
     ("Content-Type", "application/json") ∈ headersOf cfgDemo ∧
     ("accept", "application/json") ∈ headersOf cfgDemo ∧
     (∀ k, ("x-api-key", k) ∈ headersOf cfgDemo ↔ (cfgDemo.apiKey ≠ "" ∧ k = cfgDemo.apiKey))) :=
  ⟨by decide, by decide, by decide, by decide,
   request_construction cfgDemo [] msgDemo (.failure (some 500))
     (by decide) (by decide) (by decide) (by decide)⟩

/-- C10: a message whose text is exactly `"f"` (case-sensitive, untrimmed)
gets the fixed `"OK (f)"` reply and nothing else happens — no trigger
classification, no access check, no external call, for every configuration,
busy map and call outcome. -/
theorem test_f_intercept (cfg : Config) (busy : BusyMap) (m : Msg)
    (call : CallOutcome) (h : m.text = "f") :
    runHandler cfg busy m call = ([.sentReply "OK (f)"], busy) := by
  simp only [runHandler]
  rw [h, if_neg (by decide), if_pos rfl]

theorem test_f_intercept_witness :
    msgF.text = "f" ∧
    runHandler cfgDemo [] msgF (.failure none) = ([.sentReply "OK (f)"], []) :=
  ⟨rfl, test_f_intercept cfgDemo [] msgF (.failure none) rfl⟩

/-- C4: `extractAnswer` round-trip and ordered search.  The three concrete
shapes evaluate as the spec says (`none` being `part_000`'s empty-answer
indicator, and the `index.js` variant returning the sentinel string on
`{}`); and whenever the top-level `outputs` list is non-empty, the answer
scanned from the section chosen by `sectionOf` — the first section whose
`component_name` equals the configured expected component name, else the
first section — is what `extractAnswer` returns. -/
theorem extractAnswer_preference :
    extractAnswer exResp "X" = some "hello" ∧
    extractAnswer exFallback "X" = some "fallback" ∧
    extractAnswer exEmpty "X" = none ∧
    extractAnswerIdx exEmpty = emptyAnswer ∧
    (∀ (d : Json) (pref : String) (l : List Json) (s : String),
       asArr (jget d "outputs") = l → l ≠ [] →
       scanOuts (asArr (jget (sectionOf l pref) "outputs")) = some s →
       extractAnswer d pref = some s) := by
  refine ⟨by decide, by decide, by decide, by decide, ?_⟩
  intro d pref l s hl hne hscan
  have hemp : l.isEmpty = false := by
    cases l with
    | nil => exact absurd rfl hne
    | cons a t => rfl
  have hfo : fromOutputs d pref = some s := by
    simp only [fromOutputs]
    rw [hl, hemp, if_neg (by simp)]
    exact hscan
  simp only [extractAnswer, hfo]

theorem extractAnswer_preference_witness :
    asArr (jget exResp "outputs") = [exSection] ∧ ([exSection] ≠ ([] : List Json)) ∧
    scanOuts (asArr (jget (sectionOf [exSection] "X") "outputs")) = some "hello" ∧
    extractAnswer exResp "X" = some "hello" :=
  ⟨rfl, fun h => List.noConfusion h, by decide,
   extractAnswer_preference.2.2.2.2 exResp "X" [exSection] "hello" rfl
     (fun h => List.noConfusion h) (by decide)⟩

/-- C7 (code bug in `part_001`/`part_002`): the `index.js` trigger regex
matches `"ЧАТ привіт"`, `"чат, привіт"` and `"кріш!"` and rejects
`"чатик"`, exactly as the spec says; but the `part_001`/`part_002` regex
`^\s*(чат|кріш)\b[\s,:-]*` matches none of these — its JavaScript `\b` is
ASCII-word-based, so after a Cyrillic trigger word a boundary exists only
when an ASCII word character follows (e.g. `"чатx"` matches, leaving
residual `"x"`), contradicting that variant's own comment that it fires
whenever the message starts with Чат/Кріш in any case. -/
theorem trigger_unicode_examples :
    (matchTrigger "ЧАТ привіт".data).isSome = true ∧
    (matchTrigger "чат, привіт".data).isSome = true ∧
    (matchTrigger "кріш!".data).isSome = true ∧
    (matchTrigger "чатик".data).isSome = false ∧
    matchTriggerB "ЧАТ привіт".data = none ∧
    matchTriggerB "чат, привіт".data = none ∧
    matchTriggerB "кріш!".data = none ∧
    matchTriggerB "чатик".data = none ∧
    matchTriggerB "чатx".data = some ['x'] := by
  decide

/-- C8: totality of response parsing.  Both extractors are total Lean
functions (no exception path exists in the embedding; the defensive
optional-chaining lookups are total by construction), and for every input
value of any shape the result is either the empty-answer indicator or a
string that is non-blank after trimming. -/
theorem extractAnswer_total (d : Json) (pref : String) :
    (extractAnswer d pref = none ∨
       ∃ s, extractAnswer d pref = some s ∧ jsTrimS s ≠ "") ∧
    (extractAnswerIdx d = emptyAnswer ∨ jsTrimS (extractAnswerIdx d) ≠ "") := by
  constructor
  · cases hx : extractAnswer d pref with
    | none => exact Or.inl rfl
    | some s => exact Or.inr ⟨s, rfl, extractAnswer_some_nonblank hx⟩
  · cases hs : scannedIdx d with
    | some t =>
      right
      simp only [extractAnswerIdx, hs]
      exact scannedIdx_nonblank hs
    | none =>
      cases h1 : strIfTrim (jget d "message") with
      | some t =>
        right
        simp only [extractAnswerIdx, hs, h1]
        exact strIfTrim_nonblank h1
      | none =>
        left
        simp only [extractAnswerIdx, hs, h1]

end TgBot
